import Mathlib

/-!
Verification development for the memfs in-memory filesystem (package memfs,
file memory.go) and its path/boundary logic. Go strings are modelled as Lean
String values, byte buffers as List Nat (one Nat per byte; exact for the
scalar values appearing here), machine integers as Nat or Int. The platform
separator is the slash character, matching the Linux build of path/filepath.
All functions below are translated from memory.go except where a doc comment
says the definition is modelled from the spec (storage.go, the content
ReadAt/WriteAt methods, the clean helper and the billy.WriteFile helper are
repository code that is not among the provided sources).
-/

/-! ## Path model: lexical path functions of path/filepath on the slash platform -/

/-- Splits a character list on the slash separator, keeping empty segments,
as strings.SplitN/splitOn would. -/
def splitSegsAux : List Char → List Char → List String
  | acc, [] => [String.mk acc.reverse]
  | acc, c :: cs =>
    if c = '/' then String.mk acc.reverse :: splitSegsAux [] cs
    else splitSegsAux (c :: acc) cs

/-- Segments of a path string, split on the separator, empties kept. -/
def splitSegs (s : String) : List String := splitSegsAux [] s.data

/-- True when the string begins with the separator. -/
def startsWithSlash (s : String) : Bool :=
  match s.data with
  | '/' :: _ => true
  | _ => false

/-- Boolean string-prefix test on character lists (strings.HasPrefix). -/
def listPre : List Char → List Char → Bool
  | [], _ => true
  | _ :: _, [] => false
  | a :: as, b :: bs => a = b && listPre as bs

/-- strings.HasPrefix on strings. -/
def hasPre (s pre : String) : Bool := listPre pre.data s.data

/-- Joins segments with the separator (strings.Join with the slash). -/
def interSlash : List String → String
  | [] => ""
  | [s] => s
  | s :: rest => s ++ "/" ++ interSlash rest

/-- Core of the lexical cleaning algorithm of filepath.Clean: processes the
segment list left to right against an output stack (kept reversed). Empty
and dot segments are dropped; a dotdot segment pops a previous real segment,
is dropped at the root of a rooted path, and is kept at the head of a
relative path. -/
def cleanCore (rooted : Bool) : List String → List String → List String
  | out, [] => out.reverse
  | out, seg :: rest =>
    if seg = "" ∨ seg = "." then cleanCore rooted out rest
    else if seg = ".." then
      match out with
      | [] => if rooted then cleanCore rooted [] rest else cleanCore rooted [".."] rest
      | top :: outTail =>
        if top = ".." then cleanCore rooted (".." :: top :: outTail) rest
        else cleanCore rooted outTail rest
    else cleanCore rooted (seg :: out) rest

/-- filepath.Clean on the slash platform: shortest lexical equivalent of the
path; the empty path cleans to a single dot. -/
def cleanPath (path : String) : String :=
  if path = "" then "."
  else
    let rooted := startsWithSlash path
    let segs := cleanCore rooted [] (splitSegs path)
    if rooted then "/" ++ interSlash segs
    else if segs = [] then "." else interSlash segs

/-- filepath.Join on the slash platform: drops leading empty elements, joins
the rest with the separator and cleans the result; all-empty input gives the
empty string. -/
def joinList : List String → String
  | [] => ""
  | e :: rest => if e = "" then joinList rest else cleanPath (interSlash (e :: rest))

/-- Drops trailing slash characters from a string. -/
def dropTrailSlashes (s : String) : String :=
  String.mk (s.data.reverse.dropWhile (fun c => c = '/')).reverse

/-- filepath.Base on the slash platform: last element of the path after
trailing separators are removed; the empty path gives a dot, an all-slash
path gives the separator. -/
def basename (path : String) : String :=
  if path = "" then "."
  else
    let p := dropTrailSlashes path
    if p = "" then "/"
    else (splitSegs p).getLastD p

/-- Drops characters from the right while they differ from the slash, so the
result ends at the last separator of the input (or is empty). -/
def keepToLastSlash (s : String) : String :=
  String.mk (s.data.reverse.dropWhile (fun c => c ≠ '/')).reverse

/-- filepath.Dir on the slash platform: everything up to the final separator,
cleaned; a path with no separator gives a dot. -/
def dirPath (path : String) : String := cleanPath (keepToLastSlash path)

/-- Segment list used by the relative-path computation: the cleaned path with
a leading separator stripped, split on separators; the empty remainder gives
no segments. -/
def relSegs (s : String) : List String :=
  let s' := if startsWithSlash s then String.mk (s.data.drop 1) else s
  if s' = "" then [] else splitSegs s'

/-- Drops the common leading segments of two segment lists, returning both
remainders. -/
def dropCommon : List String → List String → List String × List String
  | b :: bs, t :: ts => if b = t then dropCommon bs ts else (b :: bs, t :: ts)
  | bs, ts => (bs, ts)

/-- filepath.Rel on the slash platform (no volume names): cleans both paths,
returns a dot when they agree, fails when exactly one is rooted or when the
first differing base segment is a dotdot, and otherwise climbs out of the
remaining base segments before descending into the remaining target
segments. none models the error return. -/
def relPath (basep targp : String) : Option String :=
  let base0 := cleanPath basep
  let targ := cleanPath targp
  if targ = base0 then some "."
  else
    let base := if base0 = "." then "" else base0
    if (startsWithSlash base ≠ startsWithSlash targ) then none
    else
      let (brem, trem) := dropCommon (relSegs base) (relSegs targ)
      if brem.headD "" = ".." then none
      else if brem = [] then some (interSlash trem)
      else some (interSlash (List.replicate brem.length ".." ++ trem))

/-! ## Flag and mode bits (os package constants, Linux values) -/

def oRDONLY : Nat := 0
def oWRONLY : Nat := 1
def oRDWR : Nat := 2
def oCREATE : Nat := 64
def oEXCL : Nat := 128
def oTRUNC : Nat := 512
def oAPPEND : Nat := 1024

/-- os.ModeDir bit. -/
def modeDirBit : Nat := 2 ^ 31
/-- os.ModeSymlink bit. -/
def modeSymlinkBit : Nat := 2 ^ 27

def isCreate (flag : Nat) : Bool := flag &&& oCREATE ≠ 0
def isAppend (flag : Nat) : Bool := flag &&& oAPPEND ≠ 0
def isTruncate (flag : Nat) : Bool := flag &&& oTRUNC ≠ 0
def isReadAndWrite (flag : Nat) : Bool := flag &&& oRDWR ≠ 0
def isReadOnly (flag : Nat) : Bool := flag = oRDONLY
def isWriteOnly (flag : Nat) : Bool := flag &&& oWRONLY ≠ 0
def isSymlink (m : Nat) : Bool := m &&& modeSymlinkBit ≠ 0
/-- os.FileMode.IsDir. -/
def isDirMode (m : Nat) : Bool := m &&& modeDirBit ≠ 0

/-- Memory implementation of IsAbs: native absolute detection or a leading
separator (on the slash platform the two coincide). -/
def isAbs (path : String) : Bool := startsWithSlash path

/-- isCrossBoundaries from memory.go: the path, slash-normalized and cleaned,
begins with a dotdot prefix. -/
def isCrossBoundaries (path : String) : Bool := hasPre (cleanPath path) ".."

/-! ## Bytes and Go string conversion -/

abbrev Bytes := List Nat

/-- Bytes of a Go string (identifying each character with its scalar value;
exact for the ASCII paths handled here). -/
def strBytes (s : String) : Bytes := s.data.map Char.toNat

/-- Go string built from bytes (inverse identification). -/
def strOfBytes (bs : Bytes) : String := String.mk (bs.map Char.ofNat)

/-! ## Errors -/

inductive FsError
  | notExist
  | exist
  | crossedBoundary
  | closed
  | readNotSupported
  | writeNotSupported
  | isDirectory
  | notLink
  | notEmpty
  | tempExhausted
  | eofError
  | relFailed
  | createFlagRequired
  | fuelExhausted
deriving DecidableEq, Repr

/-! ## Nodes, storage, filesystem state -/

/-- The file struct of memory.go: display name, shared-buffer reference
(modelled as an index into the storage buffer arena), cursor, open flags,
mode bits and the closed marker. Stored nodes and open handles share this
shape, as in the source. -/
structure FNode where
  name : String
  bufId : Nat
  position : Int
  flag : Nat
  mode : Nat
  isClosed : Bool
deriving DecidableEq, Repr

/-- Modelled from the spec: the StorageTree (storage.go is not among the
provided sources). files is the path-to-node map as an association list,
most recent insertion first; buffers is the arena of shared content buffers,
referenced by index from the nodes and from open handles. -/
structure Storage where
  files : List (String × FNode)
  buffers : List Bytes
deriving DecidableEq, Repr

/-- The Memory filesystem value: instance base path, storage, and the
instance-wide temp-file counter. clockNs models the nanosecond timestamp
that time.Now().UnixNano() would return during this call. -/
structure Memory where
  base : String
  s : Storage
  tempCount : Nat
  clockNs : Nat
deriving DecidableEq, Repr

/-- New returns a Memory rooted at the separator with empty storage. -/
def Memory.mk0 (clockNs : Nat) : Memory :=
  { base := "/", s := { files := [], buffers := [] }, tempCount := 0, clockNs := clockNs }

/-- Modelled from the spec: exact lookup in the StorageTree. -/
def Storage.get (s : Storage) (path : String) : Option FNode :=
  (s.files.find? (fun pr => pr.1 = path)).map Prod.snd

/-- Buffer read from the arena (absent index reads as empty). -/
def Storage.bufGet (s : Storage) (i : Nat) : Bytes := s.buffers.getD i []

/-- Buffer write into the arena (absent index is a no-op). -/
def Storage.bufSet (s : Storage) (i : Nat) (b : Bytes) : Storage :=
  { s with buffers := s.buffers.set i b }

/-- Appends a fresh buffer to the arena. -/
def Storage.pushBuf (s : Storage) (b : Bytes) : Storage :=
  { s with buffers := s.buffers ++ [b] }

/-- Inserts a new node at a path (prepends; get finds the newest entry). -/
def Storage.insertNew (s : Storage) (path : String) (f : FNode) : Storage :=
  { s with files := (path, f) :: s.files }

/-- Fresh node record for a path: display name is the basename, cursor zero,
not closed. -/
def mkNode (path : String) (bufId mode flag : Nat) : FNode :=
  { name := basename path, bufId := bufId, position := 0, flag := flag
    mode := mode, isClosed := false }

/-- Proper ancestor paths of a cleaned absolute path, root first. -/
def ancestorPaths (path : String) : List String :=
  let segs := relSegs path
  (List.range segs.length).map (fun i => "/" ++ interSlash (segs.take i))

/-- Modelled from the spec: missing intermediate ancestors are created as
Directory nodes implicitly when a node is inserted (section 4.2). -/
def Storage.mkParents (s : Storage) (path : String) : Storage :=
  (ancestorPaths path).foldl
    (fun acc p =>
      match acc.get p with
      | some _ => acc
      | none =>
        (acc.insertNew p (mkNode p acc.buffers.length (493 + modeDirBit) 0)).pushBuf [])
    s

/-- Modelled from the spec: StorageTree.new (section 4.2). A directory mode
inserts a Directory node, idempotently when a directory already exists at
the path and failing when a non-directory occupies it. A file mode requires
the create flag; an existing file is truncated in place (so handles sharing
its buffer observe the clear) and a missing one is created with a fresh
empty buffer, materializing missing ancestors as directories. -/
def Storage.New (s : Storage) (path : String) (mode flag : Nat) :
    Except FsError (FNode × Storage) :=
  if isDirMode mode then
    match s.get path with
    | some f => if isDirMode f.mode then .ok (f, s) else .error .exist
    | none =>
      let s1 := s.mkParents path
      let f := mkNode path s1.buffers.length mode flag
      .ok (f, (s1.insertNew path f).pushBuf [])
  else if ¬ isCreate flag then .error .createFlagRequired
  else
    match s.get path with
    | some f => .ok (f, s.bufSet f.bufId [])
    | none =>
      let s1 := s.mkParents path
      let f := mkNode path s1.buffers.length mode flag
      .ok (f, (s1.insertNew path f).pushBuf [])

/-- Modelled from the spec: StorageTree.children — all nodes whose immediate
parent path equals the argument (section 4.2). -/
def Storage.Children (s : Storage) (path : String) : List FNode :=
  (s.files.filter (fun pr => dirPath pr.1 = path ∧ pr.1 ≠ path)).map Prod.snd

/-- Modelled from the spec: StorageTree.rename — moves the node and every
node nested beneath it by path prefix, rewriting stored paths; a missing
source is reported as not found (section 4.2 and the section 9 policy
note). -/
def Storage.Rename (s : Storage) (src dst : String) : Except FsError Storage :=
  match s.get src with
  | none => .error .notExist
  | some _ =>
    let move := fun (pr : String × FNode) =>
      if pr.1 = src then (dst, { pr.2 with name := basename dst })
      else if listPre (src ++ "/").data pr.1.data then
        let p := dst ++ String.mk (pr.1.data.drop (src ++ "/").data.length)
        (p, pr.2)
      else pr
    .ok { s with files := s.files.map move }

/-- Modelled from the spec: StorageTree.remove — a directory with children
fails as not empty, otherwise the node is deleted; the buffer stays in the
arena so previously opened handles keep a valid view (section 4.2). -/
def Storage.Remove (s : Storage) (path : String) : Except FsError Storage :=
  match s.get path with
  | none => .error .notExist
  | some f =>
    if isDirMode f.mode ∧ s.Children path ≠ [] then .error .notEmpty
    else .ok { s with files := s.files.filter (fun pr => pr.1 ≠ path) }

/-! ## Content buffer operations -/

/-- Truncate from memory.go: the buffer becomes empty. -/
def contentTruncate : Bytes → Bytes := fun _ => []

/-- Modelled from the spec: content.ReadAt (section 4.3) — an offset at or
past the length reads nothing and signals end of data; otherwise the
available bytes from the offset are returned, at most the requested count,
with an end-of-data signal when fewer than requested were available. -/
def contentReadAt (bs : Bytes) (n off : Nat) : Bytes × Option FsError :=
  if bs.length ≤ off then ([], some .eofError)
  else
    let r := (bs.drop off).take n
    (r, if r.length < n then some .eofError else none)

/-- Modelled from the spec: content.WriteAt (section 4.3) — the buffer is
zero-padded up to the offset when writing past its length, the payload
overwrites bytes from the offset, and any bytes beyond the written region
are kept. -/
def contentWriteAt (bs p : Bytes) (off : Nat) : Bytes :=
  let padded := if bs.length < off then bs ++ List.replicate (off - bs.length) 0 else bs
  padded.take off ++ p ++ padded.drop (off + p.length)

/-! ## File handle operations (memory.go) -/

/-- Metadata record returned by Stat and Lstat (fileInfo of memory.go). -/
structure FileInfo where
  name : String
  size : Nat
  mode : Nat
deriving DecidableEq, Repr

/-- file.Stat: name, current shared-buffer length and mode of the node. -/
def fileStat (s : Storage) (f : FNode) : FileInfo :=
  { name := f.name, size := (s.bufGet f.bufId).length, mode := f.mode }

/-- file.ReadAt: fails when closed, fails as not supported unless the flags
are read-write or exactly read-only, otherwise reads from the shared
buffer. The result pairs the bytes read with the optional error, matching
the count-and-error return of the source. -/
def fileReadAt (s : Storage) (f : FNode) (n off : Nat) : Bytes × Option FsError :=
  if f.isClosed then ([], some .closed)
  else if ¬ isReadAndWrite f.flag ∧ ¬ isReadOnly f.flag then ([], some .readNotSupported)
  else contentReadAt (s.bufGet f.bufId) n off

/-- file.Read: reads at the cursor, advances the cursor by the bytes read,
and converts an end-of-data signal into success when some bytes were
delivered. The cursor is taken at its natural-number value (it is never
negative on any path exercised here). -/
def fileRead (s : Storage) (f : FNode) (n : Nat) : (Bytes × Option FsError) × FNode :=
  let (bs, err) := fileReadAt s f n f.position.toNat
  let f' := { f with position := f.position + bs.length }
  let err' := if err = some .eofError ∧ bs.length ≠ 0 then none else err
  ((bs, err'), f')

/-- file.Write: fails when closed, fails as not supported unless the flags
are read-write or write-only, otherwise writes at the cursor into the
shared buffer and advances the cursor. -/
def fileWrite (s : Storage) (f : FNode) (p : Bytes) :
    Except FsError (Nat × FNode × Storage) :=
  if f.isClosed then .error .closed
  else if ¬ isReadAndWrite f.flag ∧ ¬ isWriteOnly f.flag then .error .writeNotSupported
  else
    let b := contentWriteAt (s.bufGet f.bufId) p f.position.toNat
    .ok (p.length, { f with position := f.position + p.length }, s.bufSet f.bufId b)

/-- file.Seek: whence 1 moves relative to the cursor, 0 to the start and 2
to the current end of the shared buffer. -/
def fileSeek (s : Storage) (f : FNode) (offset : Int) (whence : Nat) :
    Except FsError (Int × FNode) :=
  if f.isClosed then .error .closed
  else
    let pos :=
      if whence = 1 then f.position + offset
      else if whence = 0 then offset
      else if whence = 2 then ((s.bufGet f.bufId).length : Int) + offset
      else f.position
    .ok (pos, { f with position := pos })

/-- file.Close: closing a closed handle fails; otherwise the handle is
marked closed. -/
def fileClose (f : FNode) : Except FsError FNode :=
  if f.isClosed then .error .closed else .ok { f with isClosed := true }

/-- file.Duplicate: a fresh handle over the same shared buffer with its own
name, mode and flags; an append flag places the cursor at the current
buffer length (before any truncation), and a truncate flag then empties the
shared buffer in place. -/
def fileDuplicate (s : Storage) (f : FNode) (filename : String) (mode flag : Nat) :
    FNode × Storage :=
  let nf : FNode :=
    { name := filename, bufId := f.bufId, position := 0, flag := flag
      mode := mode, isClosed := false }
  let nf := if isAppend flag then { nf with position := ((s.bufGet f.bufId).length : Int) } else nf
  let s' := if isTruncate flag then s.bufSet f.bufId [] else s
  (nf, s')

/-! ## Memory filesystem operations (memory.go) -/

/-- Modelled from the spec: the clean helper of the memfs package (it lives
in storage.go, which is not among the provided sources): slash-normalize and
lexically clean, which on the slash platform is filepath.Clean. -/
def memClean (path : String) : String := cleanPath path

/-- fullpath: join the request onto the instance base and clean. -/
def Memory.fullpath (fs : Memory) (path : String) : String :=
  memClean (joinList [fs.base, path])

/-- validate: the path relative to the instance base (empty on a relative-
path failure, whose error the source discards) must not begin with a dotdot
prefix; otherwise the boundary is crossed. -/
def Memory.validate (fs : Memory) (fullpath : String) : Except FsError Unit :=
  if hasPre ((relPath fs.base fullpath).getD "") ".." then .error .crossedBoundary
  else .ok ()

/-- getFromStorage: validate the full path, then exact lookup; absence is
reported as not exist. -/
def Memory.getFromStorage (fs : Memory) (fullpath : String) : Except FsError FNode :=
  match fs.validate fullpath with
  | .error e => .error e
  | .ok _ =>
    match fs.s.get fullpath with
    | none => .error .notExist
    | some f => .ok f

/-- resolveLink: a non-symlink node is returned unchanged; a symlink node
yields its stored target string, joined onto the directory containing the
link when relative, and converted back to a base-relative path (empty on a
relative-path failure, whose error the source discards). -/
def Memory.resolveLink (fs : Memory) (fullpath : String) (f : FNode) : String × Bool :=
  if ¬ isSymlink f.mode then (fullpath, false)
  else
    let target := strOfBytes (fs.s.bufGet f.bufId)
    let target := if isAbs target then target else joinList [dirPath fullpath, target]
    ((relPath fs.base target).getD "", true)

/-- Shared tail of OpenFile after the storage node is settled: directories
cannot be opened, the display name is the path relative to the base (an
error there propagates), and the returned handle duplicates the node with
the callers mode and flags. -/
def Memory.openFinish (fs : Memory) (fullpath : String) (f : FNode) (flag perm : Nat) :
    Except FsError (FNode × Memory) :=
  if isDirMode f.mode then .error .isDirectory
  else
    match relPath fs.base fullpath with
    | none => .error .relFailed
    | some filename =>
      let (h, s') := fileDuplicate fs.s f filename perm flag
      .ok (h, { fs with s := s' })

/-- OpenFile, with explicit fuel bounding the symlink recursion (the source
recurses without a bound and would loop forever on a symlink cycle). A
missing node without the create flag is not exist; with it, the storage
creates the node. An existing symlink restarts the open at the resolved
target. -/
def Memory.openFileAux : Nat → Memory → String → Nat → Nat →
    Except FsError (FNode × Memory)
  | 0, _, _, _, _ => .error .fuelExhausted
  | fuel + 1, fs, filename, flag, perm =>
    let fullpath := fs.fullpath filename
    match fs.getFromStorage fullpath with
    | .error e =>
      if e = .notExist then
        if ¬ isCreate flag then .error .notExist
        else
          match fs.s.New fullpath perm flag with
          | .error e' => .error e'
          | .ok (f, s') => Memory.openFinish { fs with s := s' } fullpath f flag perm
      else .error e
    | .ok f =>
      match fs.resolveLink fullpath f with
      | (target, true) => Memory.openFileAux fuel fs target flag perm
      | (_, false) => Memory.openFinish fs fullpath f flag perm

/-- Create: open read-write with create and truncate, permission 0666. -/
def Memory.Create (fuel : Nat) (fs : Memory) (filename : String) :
    Except FsError (FNode × Memory) :=
  Memory.openFileAux fuel fs filename (oRDWR ||| oCREATE ||| oTRUNC) 438

/-- Open: open read-only. -/
def Memory.Open (fuel : Nat) (fs : Memory) (filename : String) :
    Except FsError (FNode × Memory) :=
  Memory.openFileAux fuel fs filename oRDONLY 0

/-- Stat, with explicit fuel bounding the symlink recursion: the metadata of
the node, or of the transitively resolved target when the node is a
symlink; in either case the reported name is the basename of the originally
requested path. -/
def Memory.statAux : Nat → Memory → String → Except FsError FileInfo
  | 0, _, _ => .error .fuelExhausted
  | fuel + 1, fs, filename =>
    let fullpath := fs.fullpath filename
    match fs.getFromStorage fullpath with
    | .error e => .error e
    | .ok f =>
      match fs.resolveLink fullpath f with
      | (target, true) =>
        match Memory.statAux fuel fs target with
        | .error e => .error e
        | .ok fi => .ok { fi with name := basename filename }
      | (_, false) => .ok { fileStat fs.s f with name := basename filename }

/-- Lstat: the metadata of the node itself, never following a symlink. -/
def Memory.Lstat (fs : Memory) (filename : String) : Except FsError FileInfo :=
  match fs.getFromStorage (fs.fullpath filename) with
  | .error e => .error e
  | .ok f => .ok (fileStat fs.s f)

/-- ReadDir, with explicit fuel for the symlink recursion: when the path
resolves to a symlink the listing restarts at the target; a lookup error
(including a boundary violation) is discarded and the children of the full
path are listed regardless. -/
def Memory.readDirAux : Nat → Memory → String → Except FsError (List FileInfo)
  | 0, _, _ => .error .fuelExhausted
  | fuel + 1, fs, path =>
    let fullpath := fs.fullpath path
    let viaLink :=
      match fs.getFromStorage fullpath with
      | .ok f =>
        match fs.resolveLink fullpath f with
        | (target, true) => some target
        | (_, false) => none
      | .error _ => none
    match viaLink with
    | some target => Memory.readDirAux fuel fs target
    | none => .ok ((fs.s.Children fullpath).map (fileStat fs.s))

/-- MkdirAll: join the path onto the base and create the directory node in
storage; the source performs no boundary validation here. -/
def Memory.MkdirAll (fs : Memory) (path : String) (perm : Nat) :
    Except FsError Memory :=
  let fullpath := joinList [fs.base, path]
  match fs.s.New fullpath (perm ||| modeDirBit) 0 with
  | .error e => .error e
  | .ok (_, s') => .ok { fs with s := s' }

/-- Ceiling of the instance-wide temp-file counter. -/
def maxTempFiles : Nat := 1024 * 4

/-- getTempFilename: increments the instance counter and builds
prefix_counter_timestamp under the base and the directory. -/
def Memory.tempName (fs : Memory) (dir pfx : String) : String × Memory :=
  let fs' := { fs with tempCount := fs.tempCount + 1 }
  let filename := pfx ++ "_" ++ toString fs'.tempCount ++ "_" ++ toString fs'.clockNs
  (joinList [fs'.base, dir, filename], fs')

/-- The retry loop of TempFile: once the instance counter has reached the
ceiling the call fails; otherwise a candidate is generated and the loop
retries only while the candidate path is already present in storage. -/
def Memory.tempTry (fs : Memory) (dir pfx : String) :
    Except FsError (String × Memory) :=
  if _h : maxTempFiles ≤ fs.tempCount then .error .tempExhausted
  else
    let r := fs.tempName dir pfx
    if (r.2.s.files.find? (fun pr => pr.1 = r.1)).isSome then r.2.tempTry dir pfx
    else .ok r
termination_by maxTempFiles - fs.tempCount
decreasing_by
  simp [Memory.tempName]
  omega

/-- TempFile: run the retry loop, then Create the chosen path. -/
def Memory.TempFile (fuel : Nat) (fs : Memory) (dir pfx : String) :
    Except FsError (FNode × Memory) :=
  match fs.tempTry dir pfx with
  | .error e => .error e
  | .ok (p, fs') => Memory.Create fuel fs' p

/-- Rename: both endpoints joined onto the base and validated, then the
storage move. -/
def Memory.Rename (fs : Memory) (src dst : String) : Except FsError Memory :=
  let f := joinList [fs.base, src]
  match fs.validate f with
  | .error e => .error e
  | .ok _ =>
    let t := joinList [fs.base, dst]
    match fs.validate t with
    | .error e => .error e
    | .ok _ =>
      match fs.s.Rename f t with
      | .error e => .error e
      | .ok s' => .ok { fs with s := s' }

/-- Remove: the path joined onto the base and validated, then the storage
deletion. -/
def Memory.Remove (fs : Memory) (filename : String) : Except FsError Memory :=
  let fullpath := joinList [fs.base, filename]
  match fs.validate fullpath with
  | .error e => .error e
  | .ok _ =>
    match fs.s.Remove fullpath with
    | .error e => .error e
    | .ok s' => .ok { fs with s := s' }

/-- isTargetOutBounders: the target joined onto the directory containing the
link, relativized against the base, crosses the boundary (a relative-path
failure also counts as out of bounds). -/
def Memory.isTargetOutBounders (fs : Memory) (link target : String) : Bool :=
  let fulllink := joinList [fs.base, link]
  let fullpath := joinList [dirPath fulllink, target]
  match relPath fs.base fullpath with
  | none => true
  | some t => isCrossBoundaries t

/-- Modelled from the spec: the billy.WriteFile helper of the root package
(not among the provided sources) — open write-only with create and
truncate, write the data through the handle, close it. -/
def billyWriteFile (fuel : Nat) (fs : Memory) (filename : String) (data : Bytes)
    (perm : Nat) : Except FsError Memory :=
  match Memory.openFileAux fuel fs filename (oWRONLY ||| oCREATE ||| oTRUNC) perm with
  | .error e => .error e
  | .ok (f, fs') =>
    match fileWrite fs'.s f data with
    | .error e => .error e
    | .ok (_, _, s') => .ok { fs' with s := s' }

/-- Symlink, with explicit fuel for the embedded Stat and open: a link path
whose Stat succeeds already exists; a Stat failure other than not exist
propagates; an out-of-bounds target crosses the boundary; otherwise the
cleaned target string is written as the content of a symlink-mode node at
the cleaned link path. -/
def Memory.Symlink (fuel : Nat) (fs : Memory) (target link : String) :
    Except FsError Memory :=
  match fs.statAux fuel link with
  | .ok _ => .error .exist
  | .error e =>
    if e ≠ .notExist then .error e
    else if fs.isTargetOutBounders link target then .error .crossedBoundary
    else billyWriteFile fuel fs (memClean link) (strBytes (memClean target))
      (511 ||| modeSymlinkBit)

/-- Readlink: the node at the path must be a symlink; its content is the
target string. -/
def Memory.Readlink (fs : Memory) (link : String) : Except FsError String :=
  match fs.getFromStorage (fs.fullpath link) with
  | .error e => .error e
  | .ok f =>
    if ¬ isSymlink f.mode then .error .notLink
    else .ok (strOfBytes (fs.s.bufGet f.bufId))

/-- Chroot: the target joined onto the base and validated becomes the base
of a new instance sharing the storage. -/
def Memory.Chroot (fs : Memory) (path : String) : Except FsError Memory :=
  let fullpath := joinList [fs.base, path]
  match fs.validate fullpath with
  | .error e => .error e
  | .ok _ =>
    .ok { base := fullpath, s := fs.s, tempCount := 0, clockNs := fs.clockNs }

/-- Root reports the instance base. -/
def Memory.Root (fs : Memory) : String := fs.base

/-! ## Helper lemmas -/

theorem listGetDSet (l : List Bytes) (i : Nat) (b : Bytes) (h : i < l.length) :
    (l.set i b).getD i [] = b := by
  induction l generalizing i with
  | nil => simp at h
  | cons x xs ih =>
    cases i with
    | zero => simp [List.set, List.getD]
    | succ j =>
      simp only [List.set, List.getD, List.get?] at *
      exact ih j (by simpa using h)

theorem listSetLen (l : List Bytes) (i : Nat) (b : Bytes) :
    (l.set i b).length = l.length := by
  simp

theorem listGetDConcat (l : List Bytes) (b : Bytes) :
    (l ++ [b]).getD l.length [] = b := by
  induction l with
  | nil => rfl
  | cons x xs ih => exact ih

theorem listSetConcat (l : List Bytes) (b c : Bytes) :
    (l ++ [b]).set l.length c = l ++ [c] := by
  induction l with
  | nil => rfl
  | cons x xs ih => simp [List.set, ih]

theorem listGetDAppendLeft (l l' : Bytes) (i : Nat) (h : i < l.length) :
    (l ++ l').getD i 0 = l.getD i 0 := by
  induction l generalizing i with
  | nil => simp at h
  | cons x xs ih =>
    cases i with
    | zero => rfl
    | succ j =>
      simp only [List.cons_append, List.getD, List.get?]
      exact ih j (by simpa using h)

theorem listGetDTake (l : Bytes) (n i : Nat) (h : i < n) :
    (l.take n).getD i 0 = l.getD i 0 := by
  induction l generalizing n i with
  | nil => simp [List.getD]
  | cons x xs ih =>
    cases n with
    | zero => omega
    | succ m =>
      cases i with
      | zero => rfl
      | succ j =>
        simp only [List.take, List.getD, List.get?]
        exact ih m j (by omega)

/-- The validate error, when present, is the boundary error. -/
theorem validate_error {fs : Memory} {p : String} {e : FsError}
    (h : fs.validate p = .error e) : e = .crossedBoundary := by
  unfold Memory.validate at h
  split at h
  · exact (Except.error.inj h).symm
  · cases h

/-- getFromStorage fails only with the boundary error or not exist. -/
theorem getFromStorage_error {fs : Memory} {p : String} {e : FsError}
    (h : fs.getFromStorage p = .error e) : e = .crossedBoundary ∨ e = .notExist := by
  unfold Memory.getFromStorage at h
  split at h
  next e' heq =>
    have hb := validate_error heq
    subst hb
    exact Or.inl (Except.error.inj h).symm
  next =>
    split at h
    · exact Or.inr (Except.error.inj h).symm
    · cases h

/-- A not-exist failure of getFromStorage means the lookup was empty. -/
theorem getFromStorage_notExist {fs : Memory} {p : String}
    (h : fs.getFromStorage p = .error .notExist) : fs.s.get p = none := by
  unfold Memory.getFromStorage at h
  split at h
  · have := validate_error (by assumption)
    subst this
    cases h
  · split at h
    · assumption
    · cases h

/-- getFromStorage succeeds exactly on a validated present node. -/
theorem getFromStorage_ok {fs : Memory} {p : String} {f : FNode}
    (hval : fs.validate p = .ok ()) (hget : fs.s.get p = some f) :
    fs.getFromStorage p = .ok f := by
  unfold Memory.getFromStorage
  rw [hval, hget]

/-- Opening a path that resolves to a present, non-symlink, non-directory
node duplicates that node with the callers flags, truncating and
positioning according to the flags. -/
theorem openFileAux_existing (n : Nat) (fs : Memory) (P name : String) (f : FNode)
    (flag perm : Nat)
    (hval : fs.validate (fs.fullpath P) = .ok ())
    (hget : fs.s.get (fs.fullpath P) = some f)
    (hsym : isSymlink f.mode = false)
    (hdir : isDirMode f.mode = false)
    (hrel : relPath fs.base (fs.fullpath P) = some name) :
    Memory.openFileAux (n + 1) fs P flag perm
      = .ok ((fileDuplicate fs.s f name perm flag).1,
             { fs with s := (fileDuplicate fs.s f name perm flag).2 }) := by
  have hg := getFromStorage_ok hval hget
  simp only [Memory.openFileAux, hg, Memory.resolveLink, hsym, Bool.not_false,
    if_true, Memory.openFinish, hdir, Bool.false_eq_true, if_false, hrel]
  simp

/-- Opening an absent path with the create flag creates the node (with its
implicit ancestors and a fresh empty buffer) and returns its duplicate. -/
theorem openFileAux_absent (n : Nat) (fs : Memory) (P name : String)
    (flag perm : Nat)
    (hval : fs.validate (fs.fullpath P) = .ok ())
    (hget : fs.s.get (fs.fullpath P) = none)
    (hcr : isCreate flag = true)
    (hdirp : isDirMode perm = false)
    (hrel : relPath fs.base (fs.fullpath P) = some name) :
    Memory.openFileAux (n + 1) fs P flag perm
      = (let s1 := fs.s.mkParents (fs.fullpath P)
         let f := mkNode (fs.fullpath P) s1.buffers.length perm flag
         let s' := (s1.insertNew (fs.fullpath P) f).pushBuf []
         .ok ((fileDuplicate s' f name perm flag).1,
              { fs with s := (fileDuplicate s' f name perm flag).2 })) := by
  have hgfs : fs.getFromStorage (fs.fullpath P) = .error .notExist := by
    unfold Memory.getFromStorage
    rw [hval, hget]
  simp only [Memory.openFileAux, hgfs, reduceIte, hcr, Bool.not_true,
    Bool.false_eq_true, if_false, Storage.New, hdirp, hget, Memory.openFinish,
    mkNode, hrel]
  simp [hdirp]

/-- The shared open tail never reports an already-exists error. -/
theorem openFinish_ne_exist (fs : Memory) (p : String) (f : FNode) (flag perm : Nat) :
    Memory.openFinish fs p f flag perm ≠ .error .exist := by
  unfold Memory.openFinish
  split
  · simp
  · split <;> simp

/-- Creating a node at an absent path succeeds when the create flag is set. -/
theorem storageNew_absent_ok (s : Storage) (p : String) (m fl : Nat)
    (hget : s.get p = none) (hcr : isCreate fl = true) :
    ∃ f s', s.New p m fl = .ok (f, s') := by
  unfold Storage.New
  rw [hget]
  split
  · exact ⟨_, _, rfl⟩
  · exact ⟨_, _, rfl⟩

/-- OpenFile with the create flag never reports an already-exists error. -/
theorem openFileAux_ne_exist (n : Nat) (fs : Memory) (p : String) (flag perm : Nat)
    (hcr : isCreate flag = true) :
    Memory.openFileAux n fs p flag perm ≠ .error .exist := by
  induction n generalizing fs p with
  | zero => simp [Memory.openFileAux]
  | succ k ih =>
    simp only [Memory.openFileAux]
    cases hg : fs.getFromStorage (fs.fullpath p) with
    | error e =>
      dsimp only
      by_cases he : e = .notExist
      · subst he
        rw [if_pos rfl, if_neg (by simp [hcr])]
        obtain ⟨f, s', hnew⟩ :=
          storageNew_absent_ok fs.s (fs.fullpath p) perm flag
            (getFromStorage_notExist hg) hcr
        rw [hnew]
        exact openFinish_ne_exist _ _ _ _ _
      · rw [if_neg he]
        rcases getFromStorage_error hg with hb | hb
        · subst hb; simp
        · exact absurd hb he
    | ok f =>
      dsimp only
      cases hr : fs.resolveLink (fs.fullpath p) f with
      | mk target isLink =>
        cases isLink with
        | true => exact ih fs target
        | false => exact openFinish_ne_exist _ _ _ _ _

/-- Stat never reports an already-exists error. -/
theorem statAux_ne_exist (n : Nat) (fs : Memory) (p : String) :
    fs.statAux n p ≠ .error .exist := by
  induction n generalizing fs p with
  | zero => simp [Memory.statAux]
  | succ k ih =>
    simp only [Memory.statAux]
    cases hg : fs.getFromStorage (fs.fullpath p) with
    | error e =>
      dsimp only
      rcases getFromStorage_error hg with hb | hb <;> subst hb <;> simp
    | ok f =>
      dsimp only
      cases hr : fs.resolveLink (fs.fullpath p) f with
      | mk target isLink =>
        cases isLink with
        | true =>
          dsimp only
          cases hs : fs.statAux k target with
          | error e =>
            dsimp only
            intro hc
            have he : e = .exist := Except.error.inj hc
            exact ih fs target (by rw [hs, he])
          | ok fi => simp
        | false => simp

/-- The WriteFile helper never reports an already-exists error. -/
theorem billyWriteFile_ne_exist (n : Nat) (fs : Memory) (p : String) (data : Bytes)
    (perm : Nat) : billyWriteFile n fs p data perm ≠ .error .exist := by
  unfold billyWriteFile
  cases ho : Memory.openFileAux n fs p (oWRONLY ||| oCREATE ||| oTRUNC) perm with
  | error e =>
    dsimp only
    intro hc
    have he : e = .exist := Except.error.inj hc
    exact openFileAux_ne_exist n fs p (oWRONLY ||| oCREATE ||| oTRUNC) perm
      (by decide) (by rw [ho, he])
  | ok pr =>
    obtain ⟨f1, fs1⟩ := pr
    dsimp only
    cases hw : fileWrite fs1.s f1 data with
    | error e =>
      dsimp only
      intro hc
      have he : e = .exist := Except.error.inj hc
      subst he
      unfold fileWrite at hw
      split at hw
      · simp at hw
      · split at hw
        · simp at hw
        · simp at hw
    | ok r => simp

/-! ## Claim theorems -/

/-- C10: Symlink(target, link) fails with AlreadyExists exactly when
Stat(link) succeeds; since that existence check follows symlinks, a link
path holding a dangling symlink does not cause AlreadyExists. -/
theorem C10_symlink_exist_iff_stat (n : Nat) (fs : Memory) (target link : String) :
    fs.Symlink n target link = .error .exist ↔ ∃ fi, fs.statAux n link = .ok fi := by
  unfold Memory.Symlink
  cases hs : fs.statAux n link with
  | ok fi => simp
  | error e =>
    dsimp only
    constructor
    · intro h
      by_cases he : e = .notExist
      · subst he
        rw [if_neg (by simp)] at h
        split at h
        · simp at h
        · exact absurd h (billyWriteFile_ne_exist _ _ _ _ _)
      · rw [if_pos he] at h
        have he2 : e = .exist := Except.error.inj h
        exact absurd (by rw [hs, he2]) (statAux_ne_exist n fs link)
    · rintro ⟨fi, hfi⟩
      simp at hfi

/-- C8: a symlink whose target, joined onto the directory containing the
link and relativized against the instance root, escapes the root is
rejected at creation time: the Symlink call itself fails with the boundary
error (the in-memory backend enforces the policy at creation, not at open). -/
theorem C8_symlink_boundary (n : Nat) (fs : Memory) (target link : String)
    (hstat : fs.statAux n link = .error .notExist)
    (hout : fs.isTargetOutBounders link target = true) :
    fs.Symlink n target link = .error .crossedBoundary := by
  unfold Memory.Symlink
  rw [hstat]
  dsimp only
  rw [if_neg (by simp), if_pos hout]

/-- The filesystem value used by the boundary scenarios: an instance whose
base is a directory one level below the storage root, as Chroot produces. -/
def fsPub : Memory :=
  { base := "/pub", s := { files := [], buffers := [] }, tempCount := 0, clockNs := 0 }

/-- C8 witness: Symlink of a parent-escaping target under the chroot base
fails with the boundary error. -/
theorem C8_witness : fsPub.Symlink 1 "../secret" "link" = .error .crossedBoundary :=
  C8_symlink_boundary 1 fsPub "../secret" "link" (by rfl) (by rfl)

/-- C4: Lstat on a symlink node reports the node itself — symlink kind in
the mode and the stored target string length as size — with no reference to
the target, which need not exist; Readlink returns that stored target. -/
theorem C4_lstat_symlink (fs : Memory) (link : String) (f : FNode)
    (hget : fs.getFromStorage (fs.fullpath link) = .ok f)
    (hsym : isSymlink f.mode = true) :
    fs.Lstat link = .ok (fileStat fs.s f)
    ∧ isSymlink (fileStat fs.s f).mode = true
    ∧ (fileStat fs.s f).size = (strOfBytes (fs.s.bufGet f.bufId)).length
    ∧ fs.Readlink link = .ok (strOfBytes (fs.s.bufGet f.bufId)) := by
  refine ⟨?_, hsym, ?_, ?_⟩
  · unfold Memory.Lstat
    rw [hget]
  · simp [fileStat, strOfBytes, String.length]
  · unfold Memory.Readlink
    rw [hget]
    dsimp only
    rw [if_neg (by simp [hsym])]

/-- The filesystem holding one dangling symlink node, used as the C4
witness input: the node at the slash-l path points at a path that has no
node. -/
def fsDangling : Memory :=
  { base := "/"
    s := { files := [("/l", { name := "l", bufId := 0, position := 0, flag := 0,
                              mode := 511 + modeSymlinkBit, isClosed := false })]
           buffers := [strBytes "gone"] }
    tempCount := 0, clockNs := 0 }

/-- C4 witness: Lstat on a dangling symlink reports the symlink node itself. -/
theorem C4_witness :
    fsDangling.Lstat "/l" = .ok (fileStat fsDangling.s
      { name := "l", bufId := 0, position := 0, flag := 0,
        mode := 511 + modeSymlinkBit, isClosed := false })
    ∧ isSymlink (511 + modeSymlinkBit) = true
    ∧ fsDangling.Readlink "/l" = .ok "gone" := by
  have h := C4_lstat_symlink fsDangling "/l"
    { name := "l", bufId := 0, position := 0, flag := 0,
      mode := 511 + modeSymlinkBit, isClosed := false } (by rfl) (by decide)
  exact ⟨h.1, by decide, by rw [h.2.2.2]; rfl⟩

/-- The empty filesystem rooted at the separator. -/
def fsEmpty : Memory := Memory.mk0 0

/-- C2 counterexample: a handle opened with the read-only access value
combined with only the create bit — no write bits at all — is refused
reads: ReadAt fails as not supported (the claim says ReadAt is permitted
for such a handle), while Write also fails as not supported. -/
theorem C2_counterexample :
    (Memory.openFileAux 1 fsEmpty "/f" oCREATE 438).map
      (fun pr => (fileReadAt pr.2.s pr.1 1 0, fileWrite pr.2.s pr.1 [55]))
    = .ok (([], some .readNotSupported), .error .writeNotSupported) := by rfl

/-- C2 amended: ReadAt is permitted exactly when the flags contain the
read-write bit or equal the bare read-only value; a read-only flag combined
with any other bit (such as create) refuses both reads and writes. A handle
with flags exactly read-only reads from the buffer and cannot write; a
write-only handle writes at its cursor and, lacking the read-write bit,
cannot read. -/
theorem C2_flag_semantics (s : Storage) (f : FNode) (n off : Nat) (p : Bytes)
    (hopen : f.isClosed = false) :
    (f.flag = oRDONLY →
      fileReadAt s f n off = contentReadAt (s.bufGet f.bufId) n off
      ∧ fileWrite s f p = .error .writeNotSupported)
    ∧ (isWriteOnly f.flag = true → isReadAndWrite f.flag = false →
      fileReadAt s f n off = ([], some .readNotSupported)
      ∧ fileWrite s f p = .ok (p.length,
          { f with position := f.position + p.length },
          s.bufSet f.bufId (contentWriteAt (s.bufGet f.bufId) p f.position.toNat)))
    ∧ (isReadAndWrite f.flag = false → f.flag ≠ oRDONLY →
      fileReadAt s f n off = ([], some .readNotSupported))
    ∧ (isReadAndWrite f.flag = false → isWriteOnly f.flag = false →
      fileWrite s f p = .error .writeNotSupported) := by
  refine ⟨fun h => ⟨?_, ?_⟩, fun hw hrw => ⟨?_, ?_⟩, fun hrw h0 => ?_, fun hrw hw => ?_⟩
  · unfold fileReadAt
    rw [if_neg (by simp [hopen]), if_neg (by simp [isReadOnly, h])]
  · unfold fileWrite
    rw [if_neg (by simp [hopen]),
      if_pos ⟨by simp [isReadAndWrite, h, oRDONLY, oRDWR],
              by simp [isWriteOnly, h, oRDONLY, oWRONLY]⟩]
  · have h0 : f.flag ≠ oRDONLY := by
      intro hz
      rw [hz] at hw
      simp [isWriteOnly, oWRONLY, oRDONLY] at hw
    unfold fileReadAt
    rw [if_neg (by simp [hopen]), if_pos ⟨by simp [hrw], by simp [isReadOnly, h0]⟩]
  · unfold fileWrite
    rw [if_neg (by simp [hopen]), if_neg (by simp [hrw, hw])]
  · unfold fileReadAt
    rw [if_neg (by simp [hopen]), if_pos ⟨by simp [hrw], by simp [isReadOnly, h0]⟩]
  · unfold fileWrite
    rw [if_neg (by simp [hopen]), if_pos ⟨by simp [hrw], by simp [hw]⟩]

/-- The storage used as the C2 witness input. -/
def csW : Storage := { files := [], buffers := [[7]] }

/-- The bare read-only handle of the C2 witness. -/
def roNode : FNode :=
  { name := "f", bufId := 0, position := 0, flag := 0, mode := 438, isClosed := false }

/-- The write-only handle of the C2 witness. -/
def woNode : FNode :=
  { name := "f", bufId := 0, position := 0, flag := 1, mode := 438, isClosed := false }

/-- C2 witness: a bare read-only handle over a one-byte buffer reads that
byte and is refused writes; a write-only handle on the same buffer is
refused reads. -/
theorem C2_witness :
    (fileReadAt csW roNode 1 0 = contentReadAt [7] 1 0
      ∧ fileWrite csW roNode [9] = .error .writeNotSupported)
    ∧ fileReadAt csW woNode 1 0 = ([], some .readNotSupported) := by
  have h1 := (C2_flag_semantics csW roNode 1 0 [9] rfl).1 rfl
  have h2 := ((C2_flag_semantics csW woNode 1 0 [9] rfl).2.1 (by decide) (by decide)).1
  exact ⟨h1, h2⟩

/-- C1: the boundary gap — on an instance whose base is below the storage
root, MkdirAll on a parent-escaping path performs no validation: it
succeeds and creates a directory node outside the instance root (a path
validate itself rejects as a boundary crossing), and ReadDir on the
parent-escape path discards the validation error and lists the nodes
outside the root instead of failing; Rename, Remove and Chroot on the same
escaping path all fail with the boundary error, showing the check the two
operations skip. -/
theorem C1_mkdir_readdir_escape :
    ∃ fs' : Memory,
      fsPub.MkdirAll "../escaped" 493 = .ok fs'
      ∧ (fs'.s.get "/escaped").isSome = true
      ∧ fs'.validate "/escaped" = .error .crossedBoundary
      ∧ fs'.readDirAux 1 ".."
          = .ok [{ name := "escaped", size := 0, mode := 493 ||| modeDirBit }]
      ∧ fs'.Remove "../escaped" = .error .crossedBoundary
      ∧ fs'.Rename "../escaped" "../other" = .error .crossedBoundary
      ∧ fs'.Chroot ".." = .error .crossedBoundary := by
  refine ⟨_, rfl, ?_, ?_, ?_, ?_, ?_, ?_⟩ <;> rfl

/-- The instance whose lifetime temp counter has reached the ceiling while
its storage is empty, reachable after 4096 TempFile calls whose files were
later removed. -/
def fsTempMax : Memory :=
  { base := "/", s := { files := [], buffers := [] }, tempCount := 4096, clockNs := 0 }

/-- C9 counterexample: on an instance whose lifetime counter has reached
the ceiling, TempFile fails with resource exhaustion although the storage
is empty and no candidate name could collide — the claim says such a call
succeeds no matter how many earlier calls the instance served. -/
theorem C9_counterexample :
    Memory.TempFile 1 fsTempMax "d" "t" = .error .tempExhausted := by
  have h : fsTempMax.tempTry "d" "t" = .error .tempExhausted := by
    rw [Memory.tempTry]
    rw [dif_pos (by norm_num [maxTempFiles, fsTempMax])]
  unfold Memory.TempFile
  rw [h]

/-- C9 amended: the retry ceiling is on the instance-lifetime monotonic
counter, not per call — once the counter has reached the ceiling of 4096
generated names, every TempFile call fails with resource exhaustion
regardless of collisions; below the ceiling, a call whose first candidate
name (prefix, underscore, counter, underscore, timestamp) is free retries
no further: it bumps the counter once and creates that candidate. -/
theorem C9_counter_ceiling (fuel : Nat) (fs fs1 : Memory) (dir pfx p : String)
    (hname : fs.tempName dir pfx = (p, fs1)) :
    (maxTempFiles ≤ fs.tempCount →
      Memory.TempFile fuel fs dir pfx = .error .tempExhausted)
    ∧ (fs.tempCount < maxTempFiles →
      (fs1.s.files.find? (fun pr => pr.1 = p)).isSome = false →
      Memory.TempFile fuel fs dir pfx = Memory.Create fuel fs1 p
      ∧ fs1.tempCount = fs.tempCount + 1) := by
  constructor
  · intro hceil
    have h : fs.tempTry dir pfx = .error .tempExhausted := by
      rw [Memory.tempTry, dif_pos hceil]
    unfold Memory.TempFile
    rw [h]
  · intro hlt hfree
    have h : fs.tempTry dir pfx = .ok (p, fs1) := by
      rw [Memory.tempTry, dif_neg (by omega)]
      dsimp only
      rw [hname]
      rw [if_neg (by simp [hfree])]
    constructor
    · unfold Memory.TempFile
      rw [h]
    · have h2 : fs1 = (fs.tempName dir pfx).2 := by rw [hname]
      rw [h2]
      rfl

/-- C9 witness: below the ceiling and with a free candidate, the call
creates the single generated name and bumps the counter once. -/
theorem C9_witness :
    Memory.TempFile 1 (Memory.mk0 7) "d" "t"
      = Memory.Create 1 { Memory.mk0 7 with tempCount := 1 } "/d/t_1_7"
    ∧ ({ Memory.mk0 7 with tempCount := 1 } : Memory).tempCount
      = (Memory.mk0 7).tempCount + 1 :=
  (C9_counter_ceiling 1 (Memory.mk0 7) { Memory.mk0 7 with tempCount := 1 }
    "d" "t" "/d/t_1_7" (by rfl)).2 (by norm_num [maxTempFiles, Memory.mk0]) (by rfl)

/-- Writing at an offset never changes existing bytes below that offset. -/
theorem contentWriteAt_preserves (bs p : Bytes) (off i : Nat)
    (hi : i < off) (hib : i < bs.length) :
    (contentWriteAt bs p off).getD i 0 = bs.getD i 0 := by
  unfold contentWriteAt
  by_cases hlt : bs.length < off
  · rw [if_pos hlt]
    rw [listGetDAppendLeft _ _ _ (by simp; omega)]
    rw [listGetDAppendLeft _ _ _ (by simp; omega)]
    rw [listGetDTake _ _ _ hi]
    exact listGetDAppendLeft _ _ _ hib
  · rw [if_neg hlt]
    rw [listGetDAppendLeft _ _ _ (by simp; omega)]
    rw [listGetDAppendLeft _ _ _ (by simp; omega)]
    exact listGetDTake _ _ _ hi

/-- C6: a handle opened with the append flag starts with its cursor at the
buffer length seen at open time, and a write through it (with no
intervening seek) succeeds and leaves every byte stored below that cursor
unchanged — including bytes another handle wrote to the shared buffer
between the open and the write, which is modelled by letting the storage at
write time be arbitrary. -/
theorem C6_append_monotonic (s s2 : Storage) (f : FNode) (name : String)
    (perm flag : Nat) (p : Bytes)
    (happ : isAppend flag = true)
    (hw : isReadAndWrite flag = true ∨ isWriteOnly flag = true) :
    (fileDuplicate s f name perm flag).1.position
      = ((s.bufGet f.bufId).length : Int)
    ∧ ∃ s2', fileWrite s2 (fileDuplicate s f name perm flag).1 p
        = .ok (p.length,
            { (fileDuplicate s f name perm flag).1 with
                position := ((s.bufGet f.bufId).length : Int) + p.length }, s2')
      ∧ ∀ i : Nat, i < (s.bufGet f.bufId).length →
          i < (s2.bufGet f.bufId).length →
          (s2'.bufGet f.bufId).getD i 0 = (s2.bufGet f.bufId).getD i 0 := by
  have hdup : (fileDuplicate s f name perm flag).1
      = { name := name, bufId := f.bufId,
          position := ((s.bufGet f.bufId).length : Int), flag := flag,
          mode := perm, isClosed := false } := by
    simp only [fileDuplicate, happ, reduceIte]
  constructor
  · rw [hdup]
  · refine ⟨s2.bufSet f.bufId
      (contentWriteAt (s2.bufGet f.bufId) p (s.bufGet f.bufId).length), ?_, ?_⟩
    · rw [hdup]
      unfold fileWrite
      rw [if_neg (by simp), if_neg (by rcases hw with h | h <;> simp [h])]
      simp [Int.toNat_ofNat]
    · intro i hi hib
      by_cases hb : f.bufId < s2.buffers.length
      · have hset : (s2.bufSet f.bufId
            (contentWriteAt (s2.bufGet f.bufId) p (s.bufGet f.bufId).length)).bufGet f.bufId
            = contentWriteAt (s2.bufGet f.bufId) p (s.bufGet f.bufId).length := by
          unfold Storage.bufGet Storage.bufSet
          exact listGetDSet _ _ _ hb
        rw [hset]
        exact contentWriteAt_preserves _ _ _ _ hi hib
      · have hnil : s2.bufGet f.bufId = [] := by
          unfold Storage.bufGet
          rw [List.getD_eq_default]
          omega
        rw [hnil] at hib
        simp at hib

/-- Storage at open time for the C6 witness: the shared buffer holds two
bytes. -/
def c6s : Storage := { files := [], buffers := [[1, 2]] }

/-- Storage at write time for the C6 witness: another handle extended the
shared buffer to four bytes in between. -/
def c6s2 : Storage := { files := [], buffers := [[7, 7, 7, 7]] }

/-- The stored node the C6 witness handle duplicates. -/
def c6f : FNode :=
  { name := "f", bufId := 0, position := 0, flag := 0, mode := 438, isClosed := false }

/-- C6 witness: a handle opened with write-only and append flags over a
two-byte buffer starts its cursor at two. -/
theorem C6_witness : (fileDuplicate c6s c6f "f" 438 1025).1.position = (2 : Int) :=
  (C6_append_monotonic c6s c6s2 c6f "f" 438 1025 [5] (by decide)
    (Or.inr (by decide))).1

/-- A non-symlink node resolves Stat to its own metadata under the
requested basename. -/
theorem statAux_nonlink (n : Nat) (fs : Memory) (p : String) (f : FNode)
    (hget : fs.getFromStorage (fs.fullpath p) = .ok f)
    (hsym : isSymlink f.mode = false) :
    fs.statAux (n + 1) p
      = .ok { name := basename p, size := (fs.s.bufGet f.bufId).length,
              mode := f.mode } := by
  simp only [Memory.statAux, hget]
  have hr : fs.resolveLink (fs.fullpath p) f = (fs.fullpath p, false) := by
    unfold Memory.resolveLink
    rw [if_pos (by simp [hsym])]
  rw [hr]
  simp [fileStat]

/-- A symlink node resolves Stat through its target, then overwrites the
reported name with the basename of the requested path. -/
theorem statAux_link (n : Nat) (fs : Memory) (p t : String) (f : FNode)
    (fi : FileInfo)
    (hget : fs.getFromStorage (fs.fullpath p) = .ok f)
    (hr : fs.resolveLink (fs.fullpath p) f = (t, true))
    (hrec : fs.statAux n t = .ok fi) :
    fs.statAux (n + 1) p = .ok { fi with name := basename p } := by
  simp only [Memory.statAux, hget]
  rw [hr]
  dsimp only
  rw [hrec]

/-- C3: Stat on a two-hop symlink chain ending at a file reports the final
node metadata — its buffer length as size and its mode — under the basename
of the originally requested path, not the basename of either target. -/
theorem C3_stat_chain (n : Nat) (fs : Memory) (a b c : String) (fa fb fc : FNode)
    (ha : fs.getFromStorage (fs.fullpath a) = .ok fa)
    (hra : fs.resolveLink (fs.fullpath a) fa = (b, true))
    (hb : fs.getFromStorage (fs.fullpath b) = .ok fb)
    (hrb : fs.resolveLink (fs.fullpath b) fb = (c, true))
    (hc : fs.getFromStorage (fs.fullpath c) = .ok fc)
    (hcf : isSymlink fc.mode = false) :
    fs.statAux (n + 3) a
      = .ok { name := basename a, size := (fs.s.bufGet fc.bufId).length,
              mode := fc.mode } := by
  have h1 := statAux_nonlink n fs c fc hc hcf
  have h2 := statAux_link (n + 1) fs b c fb _ hb hrb h1
  have h3 := statAux_link (n + 2) fs a b fa _ ha hra h2
  exact h3

/-- The chain node at the first link of the C3 witness. -/
def nodeA : FNode :=
  { name := "a", bufId := 0, position := 0, flag := 0,
    mode := 511 + modeSymlinkBit, isClosed := false }

/-- The chain node at the second link of the C3 witness. -/
def nodeB : FNode :=
  { name := "b", bufId := 1, position := 0, flag := 0,
    mode := 511 + modeSymlinkBit, isClosed := false }

/-- The file node at the end of the C3 witness chain. -/
def nodeC : FNode :=
  { name := "c", bufId := 2, position := 0, flag := 0, mode := 420, isClosed := false }

/-- The filesystem holding the two-hop chain of the C3 witness. -/
def fsChain : Memory :=
  { base := "/"
    s := { files := [("/a", nodeA), ("/b", nodeB), ("/c", nodeC)]
           buffers := [strBytes "b", strBytes "c", [10, 20, 30]] }
    tempCount := 0, clockNs := 0 }

/-- C3 witness: Stat through the concrete chain reports size three, the
file mode, and the basename of the requested path. -/
theorem C3_witness : fsChain.statAux 3 "/a" = .ok { name := "a", size := 3, mode := 420 } := by
  have h := C3_stat_chain 0 fsChain "/a" "b" "c" nodeA nodeB nodeC
    (by rfl) (by rfl) (by rfl) (by rfl) (by rfl) (by decide)
  rw [h]
  rfl

/-- C5: opening an existing regular file with the read-write, create and
truncate flags empties the shared buffer in place before any new write: the
returned handle views the same buffer at cursor zero, the buffer length is
zero, and every other handle over the same buffer observes size zero. -/
theorem C5_truncate_on_reopen (n : Nat) (fs : Memory) (P name : String) (f : FNode)
    (perm : Nat)
    (hval : fs.validate (fs.fullpath P) = .ok ())
    (hget : fs.s.get (fs.fullpath P) = some f)
    (hsym : isSymlink f.mode = false)
    (hdir : isDirMode f.mode = false)
    (hbuf : f.bufId < fs.s.buffers.length)
    (hrel : relPath fs.base (fs.fullpath P) = some name) :
    Memory.openFileAux (n + 1) fs P (oRDWR ||| oCREATE ||| oTRUNC) perm
      = .ok ({ name := name, bufId := f.bufId, position := 0,
               flag := oRDWR ||| oCREATE ||| oTRUNC, mode := perm, isClosed := false },
             { fs with s := fs.s.bufSet f.bufId [] })
    ∧ (fs.s.bufSet f.bufId []).bufGet f.bufId = []
    ∧ ∀ g : FNode, g.bufId = f.bufId →
        (fileStat (fs.s.bufSet f.bufId []) g).size = 0 := by
  have hgd : (fs.s.bufSet f.bufId []).bufGet f.bufId = [] := by
    unfold Storage.bufGet Storage.bufSet
    exact listGetDSet _ _ _ hbuf
  have hopen := openFileAux_existing n fs P name f (oRDWR ||| oCREATE ||| oTRUNC)
    perm hval hget hsym hdir hrel
  refine ⟨?_, hgd, ?_⟩
  · rw [hopen]
    have hap : isAppend (oRDWR ||| oCREATE ||| oTRUNC) = false := by decide
    have htr : isTruncate (oRDWR ||| oCREATE ||| oTRUNC) = true := by decide
    simp only [fileDuplicate, hap, htr, reduceIte, Bool.false_eq_true, if_false]
  · intro g hg
    unfold fileStat
    rw [hg, hgd]
    rfl

/-- The stored regular file node of the C5 witness. -/
def fNodeF : FNode :=
  { name := "f", bufId := 0, position := 0, flag := 578, mode := 438, isClosed := false }

/-- A second handle sharing the C5 witness buffer, opened before the
truncating reopen. -/
def gHandle : FNode :=
  { name := "f", bufId := 0, position := 3, flag := 2, mode := 438, isClosed := false }

/-- The filesystem of the C5 witness: one three-byte regular file. -/
def fsOneFile : Memory :=
  { base := "/", s := { files := [("/f", fNodeF)], buffers := [[9, 9, 9]] }
    tempCount := 0, clockNs := 0 }

/-- C5 witness: reopening the three-byte file with create and truncate
yields the truncating handle, the shared buffer becomes empty, and the
other open handle over it reports size zero. -/
theorem C5_witness :
    Memory.openFileAux 1 fsOneFile "/f" (oRDWR ||| oCREATE ||| oTRUNC) 438
      = .ok ({ name := "f", bufId := 0, position := 0,
               flag := oRDWR ||| oCREATE ||| oTRUNC, mode := 438, isClosed := false },
             { fsOneFile with s := fsOneFile.s.bufSet 0 [] })
    ∧ (fsOneFile.s.bufSet 0 []).bufGet 0 = []
    ∧ (fileStat (fsOneFile.s.bufSet 0 []) gHandle).size = 0 := by
  have h := C5_truncate_on_reopen 0 fsOneFile "/f" "f" fNodeF 438
    (by rfl) (by rfl) (by decide) (by decide) (by decide) (by rfl)
  exact ⟨h.1, h.2.1, h.2.2 gHandle rfl⟩

/-- The bytes a Read delivers are the bytes ReadAt delivers at the cursor. -/
theorem fileRead_fst (s : Storage) (f : FNode) (n : Nat) :
    (fileRead s f n).1.1 = (fileReadAt s f n f.position.toNat).1 := by
  unfold fileRead
  cases hx : fileReadAt s f n f.position.toNat with
  | mk bs err =>
    rfl

/-- Reading a whole buffer from offset zero returns the buffer. -/
theorem contentReadAt_all (bs : Bytes) : (contentReadAt bs bs.length 0).1 = bs := by
  unfold contentReadAt
  by_cases h : bs.length ≤ 0
  · rw [if_pos h]
    have hnil : bs = [] := List.eq_nil_of_length_eq_zero (by omega)
    rw [hnil]
  · rw [if_neg h]
    simp

/-- Writing a payload at offset zero of an empty buffer stores exactly the
payload. -/
theorem contentWriteAt_nil (p : Bytes) : contentWriteAt [] p 0 = p := by
  unfold contentWriteAt
  simp

/-- An open writable handle writes at its cursor. -/
theorem fileWrite_ok (s : Storage) (f : FNode) (p : Bytes)
    (hcl : f.isClosed = false)
    (hw : isReadAndWrite f.flag = true ∨ isWriteOnly f.flag = true) :
    fileWrite s f p = .ok (p.length, { f with position := f.position + p.length },
      s.bufSet f.bufId (contentWriteAt (s.bufGet f.bufId) p f.position.toNat)) := by
  unfold fileWrite
  rw [if_neg (by simp [hcl]), if_neg (by rcases hw with h | h <;> simp [h])]

/-- An open readable handle reads from the shared buffer. -/
theorem fileReadAt_ok (s : Storage) (f : FNode) (n off : Nat)
    (hcl : f.isClosed = false)
    (hr : isReadAndWrite f.flag = true ∨ isReadOnly f.flag = true) :
    fileReadAt s f n off = contentReadAt (s.bufGet f.bufId) n off := by
  unfold fileReadAt
  rw [if_neg (by simp [hcl]), if_neg (by rcases hr with h | h <;> simp [h])]

/-- The write-then-open-then-read tail shared by the round-trip argument:
on a state whose validated path holds a regular node over an empty shared
buffer, writing the payload through the truncating create handle, then
opening read-only and reading the buffer length, delivers the payload. -/
theorem roundtrip_tail (n : Nat) (fs1 : Memory) (P name : String) (f : FNode)
    (B : Bytes)
    (hval : fs1.validate (fs1.fullpath P) = .ok ())
    (hrel : relPath fs1.base (fs1.fullpath P) = some name)
    (hget : fs1.s.get (fs1.fullpath P) = some f)
    (hsym : isSymlink f.mode = false)
    (hdir : isDirMode f.mode = false)
    (hbuf : f.bufId < fs1.s.buffers.length)
    (hempty : fs1.s.bufGet f.bufId = []) :
    ∃ h1 s2 h2 fs3,
      fileWrite fs1.s
        { name := name, bufId := f.bufId, position := 0,
          flag := oRDWR ||| oCREATE ||| oTRUNC, mode := 438, isClosed := false } B
        = .ok (B.length, h1, s2)
      ∧ Memory.Open (n + 1) { fs1 with s := s2 } P = .ok (h2, fs3)
      ∧ (fileRead fs3.s h2 B.length).1.1 = B := by
  have hbg : (fs1.s.bufSet f.bufId B).bufGet f.bufId = B := by
    unfold Storage.bufGet Storage.bufSet
    exact listGetDSet _ _ _ hbuf
  have hwrite := fileWrite_ok fs1.s
    { name := name, bufId := f.bufId, position := 0,
      flag := oRDWR ||| oCREATE ||| oTRUNC, mode := 438, isClosed := false } B
    rfl (Or.inl (show isReadAndWrite (oRDWR ||| oCREATE ||| oTRUNC) = true by decide))
  dsimp only at hwrite
  rw [hempty, show Int.toNat 0 = 0 from rfl, contentWriteAt_nil] at hwrite
  have hopen2 := openFileAux_existing n { fs1 with s := fs1.s.bufSet f.bufId B }
    P name f oRDONLY 0 hval hget hsym hdir hrel
  refine ⟨_, fs1.s.bufSet f.bufId B,
    { name := name, bufId := f.bufId, position := 0, flag := oRDONLY, mode := 0,
      isClosed := false },
    { fs1 with s := fs1.s.bufSet f.bufId B }, hwrite, hopen2, ?_⟩
  rw [fileRead_fst]
  rw [fileReadAt_ok _ _ _ _ rfl (Or.inr (show isReadOnly oRDONLY = true by decide))]
  dsimp only
  rw [hbg]
  exact contentReadAt_all B

/-- Buffer writes do not change the path index. -/
theorem storageGet_bufSet (s : Storage) (i : Nat) (b : Bytes) (p : String) :
    (s.bufSet i b).get p = s.get p := rfl

/-- Appending a buffer does not change the path index. -/
theorem storageGet_pushBuf (s : Storage) (b : Bytes) (p : String) :
    (s.pushBuf b).get p = s.get p := rfl

/-- A freshly inserted node is found at its path. -/
theorem storageGet_insert (s : Storage) (p : String) (f : FNode) :
    (s.insertNew p f).get p = some f := by
  unfold Storage.get Storage.insertNew
  simp [List.find?]

/-- C7: the write-read round trip — for every byte sequence and every
validated path that is absent or holds a plain file over a live buffer,
Create followed by writing the bytes, then a read-only Open of the same
path followed by reading the buffer length, delivers exactly the bytes
written. -/
theorem C7_roundtrip (n : Nat) (fs : Memory) (P name : String) (B : Bytes)
    (hval : fs.validate (fs.fullpath P) = .ok ())
    (hrel : relPath fs.base (fs.fullpath P) = some name)
    (hnode : fs.s.get (fs.fullpath P) = none
      ∨ ∃ f, fs.s.get (fs.fullpath P) = some f ∧ isSymlink f.mode = false
          ∧ isDirMode f.mode = false ∧ f.bufId < fs.s.buffers.length) :
    ∃ h fs1 h1 s2 h2 fs3,
      Memory.Create (n + 1) fs P = .ok (h, fs1)
      ∧ fileWrite fs1.s h B = .ok (B.length, h1, s2)
      ∧ Memory.Open (n + 1) { fs1 with s := s2 } P = .ok (h2, fs3)
      ∧ (fileRead fs3.s h2 B.length).1.1 = B := by
  rcases hnode with hget | ⟨f, hget, hsym, hdir, hbuf⟩
  · have hopen := openFileAux_absent n fs P name (oRDWR ||| oCREATE ||| oTRUNC) 438
      hval hget (by decide) (by decide) hrel
    have hget1 : ((((fs.s.mkParents (fs.fullpath P)).insertNew (fs.fullpath P)
          (mkNode (fs.fullpath P) (fs.s.mkParents (fs.fullpath P)).buffers.length 438
            (oRDWR ||| oCREATE ||| oTRUNC))).pushBuf []).bufSet
          (fs.s.mkParents (fs.fullpath P)).buffers.length []).get (fs.fullpath P)
        = some (mkNode (fs.fullpath P) (fs.s.mkParents (fs.fullpath P)).buffers.length 438
            (oRDWR ||| oCREATE ||| oTRUNC)) := by
      rw [storageGet_bufSet, storageGet_pushBuf, storageGet_insert]
    have hbuf1 : (fs.s.mkParents (fs.fullpath P)).buffers.length
        < (((((fs.s.mkParents (fs.fullpath P)).insertNew (fs.fullpath P)
          (mkNode (fs.fullpath P) (fs.s.mkParents (fs.fullpath P)).buffers.length 438
            (oRDWR ||| oCREATE ||| oTRUNC))).pushBuf []).bufSet
          (fs.s.mkParents (fs.fullpath P)).buffers.length []).buffers).length := by
      unfold Storage.bufSet Storage.pushBuf Storage.insertNew
      simp
    have hempty1 : (((((fs.s.mkParents (fs.fullpath P)).insertNew (fs.fullpath P)
          (mkNode (fs.fullpath P) (fs.s.mkParents (fs.fullpath P)).buffers.length 438
            (oRDWR ||| oCREATE ||| oTRUNC))).pushBuf []).bufSet
          (fs.s.mkParents (fs.fullpath P)).buffers.length [])).bufGet
          (fs.s.mkParents (fs.fullpath P)).buffers.length = [] := by
      unfold Storage.bufGet Storage.bufSet Storage.pushBuf Storage.insertNew
      dsimp only
      rw [listSetConcat]
      exact listGetDConcat _ _
    obtain ⟨h1, s2, h2, fs3, hw, ho, hr⟩ := roundtrip_tail n
      { fs with s := ((((fs.s.mkParents (fs.fullpath P)).insertNew (fs.fullpath P)
          (mkNode (fs.fullpath P) (fs.s.mkParents (fs.fullpath P)).buffers.length 438
            (oRDWR ||| oCREATE ||| oTRUNC))).pushBuf []).bufSet
          (fs.s.mkParents (fs.fullpath P)).buffers.length []) }
      P name
      (mkNode (fs.fullpath P) (fs.s.mkParents (fs.fullpath P)).buffers.length 438
        (oRDWR ||| oCREATE ||| oTRUNC))
      B hval hrel hget1 (show isSymlink (438 : Nat) = false by decide)
      (show isDirMode (438 : Nat) = false by decide) hbuf1 hempty1
    exact ⟨_, _, h1, s2, h2, fs3, hopen, hw, ho, hr⟩
  · have hopen := openFileAux_existing n fs P name f (oRDWR ||| oCREATE ||| oTRUNC)
      438 hval hget hsym hdir hrel
    have hbuf1 : f.bufId < ((fs.s.bufSet f.bufId []).buffers).length := by
      unfold Storage.bufSet
      simpa using hbuf
    have hempty1 : (fs.s.bufSet f.bufId []).bufGet f.bufId = [] := by
      unfold Storage.bufGet Storage.bufSet
      exact listGetDSet _ _ _ hbuf
    obtain ⟨h1, s2, h2, fs3, hw, ho, hr⟩ := roundtrip_tail n
      { fs with s := fs.s.bufSet f.bufId [] } P name f B
      hval hrel hget hsym hdir hbuf1 hempty1
    exact ⟨_, _, h1, s2, h2, fs3, hopen, hw, ho, hr⟩

/-- C7 witness: on the empty filesystem, creating a file, writing two
bytes, reopening read-only and reading them back returns exactly the two
bytes. -/
theorem C7_witness :
    ((Memory.Create 1 fsEmpty "/rt").map (fun pr =>
      (fileWrite pr.2.s pr.1 [104, 105]).map (fun w =>
        (Memory.Open 1 { pr.2 with s := w.2.2 } "/rt").map (fun pr2 =>
          (fileRead pr2.2.s pr2.1 ([104, 105] : Bytes).length).1.1))))
    = .ok (.ok (.ok [104, 105])) := by
  obtain ⟨h, fs1, h1, s2, h2, fs3, e1, e2, e3, e4⟩ :=
    C7_roundtrip 0 fsEmpty "/rt" "rt" [104, 105] (by rfl) (by rfl) (Or.inl (by rfl))
  rw [e1]
  simp only [Except.map]
  rw [e2]
  simp only [Except.map]
  rw [e3]
  simp only [Except.map]
  rw [e4]
